import Mathlib

/-!
Verification model of `src/end_events.rs` from the Locking-Pomodoro-Timer
repository.  External effects (filesystem checks, process invocations,
threads and sleeps) are modelled by explicit oracles, event traces, a
small-step interleaving semantics for `continuously_lock_screen`, and a
timed model for its sleep pattern.  All definitions are translated from
the Rust source.
-/

namespace EndEvents

/-- The `EndEvent` enum (end_events.rs lines 46-57): `Sound` carries an
optional path to an external sound file, `LockScreen` carries no data.
`PathBuf` is modelled as `String`. -/
inductive EndEvent where
  | Sound (filepath_sound : Option String)
  | LockScreen
  deriving DecidableEq, Repr

/-! ## Serde serialization model

The enum derives `Serialize`/`Deserialize` with
`#[serde(rename_all = "camelCase", rename_all_fields = "camelCase")]` and
`#[serde(default, skip_serializing_if = "Option::is_none")]` on
`filepath_sound`.  The functions below model the serde-generated JSON
(de)serializer for this type: externally tagged representation, the
`Sound` struct variant as an object under key `"sound"` whose
`filepathSound` field is emitted exactly when the option is `Some`, and
the unit variant `LockScreen` as the bare string `"lockScreen"`. -/

/-- Lower-case hexadecimal digit, as used by serde_json's escape table. -/
def hexDigit (n : Nat) : Char :=
  if n < 10 then Char.ofNat (48 + n) else Char.ofNat (87 + n)

/-- JSON escaping of a single character, following serde_json: quote and
backslash are escaped, control characters use their short escapes or
`\u00XX`. -/
def escChar (c : Char) : List Char :=
  if c = '"' then ['\\', '"']
  else if c = '\\' then ['\\', '\\']
  else if c.toNat = 8 then ['\\', 'b']
  else if c.toNat = 9 then ['\\', 't']
  else if c.toNat = 10 then ['\\', 'n']
  else if c.toNat = 12 then ['\\', 'f']
  else if c.toNat = 13 then ['\\', 'r']
  else if c.toNat < 32 then
    ['\\', 'u', '0', '0', hexDigit (c.toNat / 16), hexDigit (c.toNat % 16)]
  else [c]

/-- JSON string-content escaping (serde_json). -/
def jsonEscape (s : String) : String :=
  String.mk (s.data.foldr (fun c acc => escChar c ++ acc) [])

/-- Serialized form of `Sound` with no path. -/
def soundEmptyJson : String := "\x7b\"sound\":\x7b\x7d\x7d"

/-- Opening part of the serialized form of `Sound` with a path. -/
def soundFieldPre : String := "\x7b\"sound\":\x7b\"filepathSound\":\""

/-- Closing part of the serialized form of `Sound` with a path. -/
def soundFieldSuf : String := "\"\x7d\x7d"

/-- The serde-generated JSON serializer for `EndEvent`: the `filepathSound`
field is skipped exactly when the option is `None`
(`skip_serializing_if = "Option::is_none"`). -/
def serializeEndEvent : EndEvent → String
  | .Sound none => soundEmptyJson
  | .Sound (some p) => soundFieldPre ++ jsonEscape p ++ soundFieldSuf
  | .LockScreen => "\"lockScreen\""

/-- Skips JSON whitespace. -/
def skipWs : List Char → List Char
  | [] => []
  | c :: rest =>
    if c = ' ' ∨ c = '\n' ∨ c = '\t' ∨ c = '\r' then skipWs rest else c :: rest

/-- Value of a hexadecimal digit character, if any. -/
def hexVal (c : Char) : Option Nat :=
  if '0' ≤ c ∧ c ≤ '9' then some (c.toNat - 48)
  else if 'a' ≤ c ∧ c ≤ 'f' then some (c.toNat - 87)
  else if 'A' ≤ c ∧ c ≤ 'F' then some (c.toNat - 55)
  else none

/-- Parses the body of a JSON string (after the opening quote), returning
the unescaped content and the remaining input.  Fueled so that it is
structurally recursive and kernel-evaluable. -/
def parseStringBody : Nat → List Char → List Char → Option (String × List Char)
  | 0, _, _ => none
  | _, _, [] => none
  | fuel + 1, acc, c :: rest =>
    if c = '"' then some (String.mk acc.reverse, rest)
    else if c = '\\' then
      match rest with
      | [] => none
      | e :: rest2 =>
        if e = '"' then parseStringBody fuel ('"' :: acc) rest2
        else if e = '\\' then parseStringBody fuel ('\\' :: acc) rest2
        else if e = '/' then parseStringBody fuel ('/' :: acc) rest2
        else if e = 'b' then parseStringBody fuel (Char.ofNat 8 :: acc) rest2
        else if e = 't' then parseStringBody fuel (Char.ofNat 9 :: acc) rest2
        else if e = 'n' then parseStringBody fuel (Char.ofNat 10 :: acc) rest2
        else if e = 'f' then parseStringBody fuel (Char.ofNat 12 :: acc) rest2
        else if e = 'r' then parseStringBody fuel (Char.ofNat 13 :: acc) rest2
        else if e = 'u' then
          match rest2 with
          | h1 :: h2 :: h3 :: h4 :: rest3 =>
            match hexVal h1, hexVal h2, hexVal h3, hexVal h4 with
            | some a, some b, some c2, some d2 =>
              parseStringBody fuel
                (Char.ofNat (((a * 16 + b) * 16 + c2) * 16 + d2) :: acc) rest3
            | _, _, _, _ => none
          | _ => none
        else none
    else parseStringBody fuel (c :: acc) rest

/-- Parses the fields of the `Sound` variant's object (string-valued
fields only, which is the fragment the `EndEvent` format uses); fields
other than `filepathSound` are ignored, as serde does by default.
Returns the `filepathSound` value, if present, and the input after the
closing brace. -/
def parseSoundFields :
    Nat → Option String → List Char → Option (Option String × List Char)
  | 0, _, _ => none
  | fuel + 1, acc, cs =>
    match skipWs cs with
    | '"' :: rest =>
      match parseStringBody (fuel + 1) [] rest with
      | some (key, rest2) =>
        match skipWs rest2 with
        | ':' :: rest4 =>
          match skipWs rest4 with
          | '"' :: rest6 =>
            match parseStringBody (fuel + 1) [] rest6 with
            | some (v, rest7) =>
              let acc2 := if key = "filepathSound" then some v else acc
              match skipWs rest7 with
              | ',' :: rest9 => parseSoundFields fuel acc2 rest9
              | '\x7d' :: rest9 => some (acc2, rest9)
              | _ => none
            | none => none
          | _ => none
        | _ => none
      | none => none
    | _ => none

/-- The serde-generated JSON deserializer for `EndEvent`, on the JSON
fragment this externally-tagged format uses: either the bare string
`"lockScreen"` or an object with the single key `"sound"` whose value is
an object with an optional string field `filepathSound` (`#[serde(default)]`
makes a missing field `None`). -/
def deserializeEndEvent (s : String) : Option EndEvent :=
  let fuel := s.length + 1
  match skipWs s.data with
  | '"' :: rest =>
    match parseStringBody fuel [] rest with
    | some (tag, rest2) =>
      if tag = "lockScreen" ∧ skipWs rest2 = [] then some .LockScreen else none
    | none => none
  | '\x7b' :: rest =>
    match skipWs rest with
    | '"' :: rest2 =>
      match parseStringBody fuel [] rest2 with
      | some (key, rest3) =>
        if key = "sound" then
          match skipWs rest3 with
          | ':' :: rest4 =>
            match skipWs rest4 with
            | '\x7b' :: rest5 =>
              let inner :=
                match skipWs rest5 with
                | '\x7d' :: rest6 =>
                  some ((none : Option String), rest6)
                | cs => parseSoundFields fuel none cs
              match inner with
              | some (fp, rest7) =>
                match skipWs rest7 with
                | '\x7d' :: rest8 =>
                  if skipWs rest8 = [] then some (.Sound fp) else none
                | _ => none
              | none => none
            | _ => none
          | _ => none
        else none
      | none => none
    | _ => none
  | _ => none

/-! ## Sound source resolution (`play_sound`, lines 300-341)

Audio output and decoding are effectful; what the claims are about is
which source is selected and whether the missing-file warning is printed.
The filesystem is an oracle `isFile : String → Bool` modelling Rust's
`path.is_file()`; `path.as_os_str().is_empty()` is modelled as equality
with `""`. -/

/-- Which audio source `play_sound` appends to the sink. -/
inductive SoundSource where
  | internal
  | external (path : String)
  deriving DecidableEq, Repr

/-- The observable outcome of `play_sound`: the selected source and
whether the missing-file warning was printed. -/
structure PlaySoundOutcome where
  source : SoundSource
  warned : Bool
  deriving DecidableEq, Repr

/-- The `use_internal` decision of `play_sound` (lines 309-325) fused with
the source choice it feeds (lines 327-338): `None` or empty path selects
the embedded sound silently; a non-empty path that is not a file selects
the embedded sound with a warning; an existing file is played itself. -/
def play_sound (isFile : String → Bool) (filepath_sound : Option String) :
    PlaySoundOutcome :=
  match filepath_sound with
  | none => ⟨.internal, false⟩
  | some path =>
    if path = "" then ⟨.internal, false⟩
    else if !(isFile path) then ⟨.internal, true⟩
    else ⟨.external path, false⟩

/-! ## Linux lock fallback chain (`lock_screen_on_linux`, lines 109-149) -/

/-- Result of `std::process::Command::output()`: either the command could
not be launched (`Err`) or it exited with a status whose `success()` is
recorded. -/
inductive CmdResult where
  | launchFailed
  | exited (success : Bool)
  deriving DecidableEq, Repr

/-- Whether a command attempt counts as a success in the fallback chain:
`Ok(output)` with `output.status.success()`. -/
def cmdSucceeded : CmdResult → Bool
  | .launchFailed => false
  | .exited s => s

/-- The three external commands `lock_screen_on_linux` can attempt, in
chain order. -/
inductive LinuxLockCmd where
  | loginctl
  | gnomeScreensaverCommand
  | dbusSend
  deriving DecidableEq, Repr

/-- Observable outcome of `lock_screen_on_linux`: the commands attempted,
in order, and whether the final warning was printed. -/
structure LinuxLockOutcome where
  attempted : List LinuxLockCmd
  warned : Bool
  deriving DecidableEq, Repr

/-- The Linux lock fallback chain: `loginctl lock-session`, then
`gnome-screensaver-command -l`, then the `dbus-send` lock call; each is
attempted only if every earlier one failed (launch error or non-success
exit), and the warning is printed only when all three fail. -/
def lock_screen_on_linux (run : LinuxLockCmd → CmdResult) : LinuxLockOutcome :=
  if cmdSucceeded (run .loginctl) then ⟨[.loginctl], false⟩
  else if cmdSucceeded (run .gnomeScreensaverCommand) then
    ⟨[.loginctl, .gnomeScreensaverCommand], false⟩
  else if cmdSucceeded (run .dbusSend) then
    ⟨[.loginctl, .gnomeScreensaverCommand, .dbusSend], false⟩
  else ⟨[.loginctl, .gnomeScreensaverCommand, .dbusSend], true⟩

/-! ## Lock-status queries (`is_screen_locked*`, lines 160-238) -/

/-- Output of a launched status command: its exit status and its stdout,
`none` when the bytes are not valid UTF-8 (`String::from_utf8` fails). -/
structure CmdOutput where
  statusSuccess : Bool
  stdoutUtf8 : Option String
  deriving DecidableEq, Repr

/-- The two `gdbus` status queries `is_screen_locked_linux` attempts, in
order. -/
inductive LinuxStatusQuery where
  | freedesktopScreenSaver
  | gnomeScreenSaver
  deriving DecidableEq, Repr

/-- Substring test modelling Rust's `str::contains`. -/
def strContainsSub (s pat : String) : Bool :=
  s.data.tails.any (fun t => pat.data.isPrefixOf t)

/-- Second half of `is_screen_locked_linux` (lines 184-205): the
GNOME-specific query, falling back to `false` (assume unlocked). -/
def is_screen_locked_linux_gnome
    (run : LinuxStatusQuery → Option CmdOutput) : Bool :=
  match run .gnomeScreenSaver with
  | some o =>
    if o.statusSuccess then
      match o.stdoutUtf8 with
      | some r => strContainsSub r "true"
      | none => false
    else false
  | none => false

/-- `is_screen_locked_linux` (lines 160-206): the freedesktop query first;
on any failure (launch, exit status, or UTF-8) control falls through to
the GNOME query, and finally to `false`. -/
def is_screen_locked_linux (run : LinuxStatusQuery → Option CmdOutput) : Bool :=
  match run .freedesktopScreenSaver with
  | some o =>
    if o.statusSuccess then
      match o.stdoutUtf8 with
      | some r => strContainsSub r "true"
      | none => is_screen_locked_linux_gnome run
    else is_screen_locked_linux_gnome run
  | none => is_screen_locked_linux_gnome run

/-- `is_screen_locked_windows` (lines 209-213): always `false`. -/
def is_screen_locked_windows : Bool := false

/-- `is_screen_locked_macos` (lines 216-225): `pgrep ScreenSaverEngine`;
the answer is its exit-status success, `false` when it cannot be
launched. -/
def is_screen_locked_macos (pgrepResult : Option CmdOutput) : Bool :=
  match pgrepResult with
  | some o => o.statusSuccess
  | none => false

/-- Target platform, selected by the `cfg!` chain in `is_screen_locked`
(lines 228-238). -/
inductive Platform where
  | linux
  | windows
  | macos
  | other
  deriving DecidableEq, Repr

/-- `is_screen_locked` (lines 228-238): platform dispatch, `false` on
unknown platforms. -/
def is_screen_locked (p : Platform)
    (linuxRun : LinuxStatusQuery → Option CmdOutput)
    (pgrepResult : Option CmdOutput) : Bool :=
  match p with
  | .linux => is_screen_locked_linux linuxRun
  | .windows => is_screen_locked_windows
  | .macos => is_screen_locked_macos pgrepResult
  | .other => false

/-- The answer a Linux status query gives when it "answers successfully"
(launched, exited successfully, stdout valid UTF-8): whether the output
reports the screensaver active. -/
def linuxQueryAnswer (run : LinuxStatusQuery → Option CmdOutput)
    (q : LinuxStatusQuery) : Option Bool :=
  match run q with
  | some o =>
    if o.statusSuccess then
      match o.stdoutUtf8 with
      | some r => some (strContainsSub r "true")
      | none => none
    else none
  | none => none

/-! ## Interleaving semantics of `continuously_lock_screen` (lines 247-296)

The caller thread runs: initial `lock_screen()`, spawn of the monitor
thread, `thread::sleep(duration)`, `should_stop.store(true)`, and
`monitor_thread.join()` (whose `Result` is discarded by `let _ =`).  The
monitor thread runs: a settle sleep, then a loop that checks the stop
flag, polls `is_screen_locked()`, re-locks after a grace sleep when
unlocked, and sleeps the poll interval.  Scheduling nondeterminism is an
explicit schedule (which thread steps next); `is_screen_locked` results
come from an oracle indexed by poll count, and possible panics inside the
monitor's `lock_screen()` call (its Windows/macOS variants use `expect`)
from an oracle indexed by re-lock count.  A thread with no enabled step
(monitor not yet spawned or already exited, caller blocked in `join`)
leaves the state unchanged. -/

/-- Observable events of a supervised run, most recent first in traces. -/
inductive Ev where
  | lockCaller
  | spawnMon
  | stopSet
  | ret
  | settleDone
  | lockMon
  | pollEv (isLocked : Bool)
  | monExit
  | monPanic
  deriving DecidableEq, Repr

/-- Program counter of the caller thread of `continuously_lock_screen`;
`sleeping n` models `thread::sleep(duration)` as `n` remaining scheduler
steps. -/
inductive CallerPC where
  | toLock
  | toSpawn
  | sleeping (n : Nat)
  | toStore
  | toJoin
  | done
  deriving DecidableEq, Repr

/-- Program counter of the monitor thread inside its loop. -/
inductive MonPC where
  | settle
  | checkFlag
  | toPoll
  | grace
  | relock
  | cooldown
  | sleepHalf
  deriving DecidableEq, Repr

/-- Lifecycle of the monitor thread. -/
inductive MonState where
  | notSpawned
  | running (pc : MonPC)
  | finished
  | panicked
  deriving DecidableEq, Repr

/-- Shared state of a supervised run: the two program counters, the
`should_stop` flag, the poll and re-lock counters (oracle indices), and
the event trace (most recent first). -/
structure Sys where
  caller : CallerPC
  mon : MonState
  flag : Bool
  polls : Nat
  monLocks : Nat
  trace : List Ev
  deriving DecidableEq, Repr

/-- One step of the caller thread (lines 252-295): lock, spawn, sleep out
the duration, store the stop flag, then join.  The join is enabled once
the monitor has exited or panicked, and returns normally in both cases
(`let _ = monitor_thread.join()`). -/
def stepCaller (d : Nat) (s : Sys) : Sys :=
  match s.caller with
  | .toLock => { s with caller := .toSpawn, trace := .lockCaller :: s.trace }
  | .toSpawn =>
    { s with caller := .sleeping d, mon := .running .settle,
             trace := .spawnMon :: s.trace }
  | .sleeping (n + 1) => { s with caller := .sleeping n }
  | .sleeping 0 => { s with caller := .toStore }
  | .toStore => { s with caller := .toJoin, flag := true, trace := .stopSet :: s.trace }
  | .toJoin =>
    match s.mon with
    | .finished => { s with caller := .done, trace := .ret :: s.trace }
    | .panicked => { s with caller := .done, trace := .ret :: s.trace }
    | _ => s
  | .done => s

/-- One step of the monitor thread (lines 256-285): settle sleep, then the
loop checking the flag, polling, and re-locking after a grace sleep with
a cool-down, then the half-second poll sleep. -/
def stepMon (lockedOr panicOr : Nat → Bool) (s : Sys) : Sys :=
  match s.mon with
  | .running pc =>
    match pc with
    | .settle => { s with mon := .running .checkFlag, trace := .settleDone :: s.trace }
    | .checkFlag =>
      if s.flag then { s with mon := .finished, trace := .monExit :: s.trace }
      else { s with mon := .running .toPoll }
    | .toPoll =>
      let b := lockedOr s.polls
      { s with mon := .running (if b then .sleepHalf else .grace),
               polls := s.polls + 1, trace := .pollEv b :: s.trace }
    | .grace => { s with mon := .running .relock }
    | .relock =>
      if panicOr s.monLocks then
        { s with mon := .panicked, trace := .monPanic :: s.trace }
      else
        { s with mon := .running .cooldown, monLocks := s.monLocks + 1,
                 trace := .lockMon :: s.trace }
    | .cooldown => { s with mon := .running .sleepHalf }
    | .sleepHalf => { s with mon := .running .checkFlag }
  | _ => s

/-- Runs a schedule (`true` = caller steps, `false` = monitor steps) from a
given state. -/
def runSteps (d : Nat) (lockedOr panicOr : Nat → Bool) :
    List Bool → Sys → Sys
  | [], s => s
  | c :: rest, s =>
    runSteps d lockedOr panicOr rest
      (if c then stepCaller d s else stepMon lockedOr panicOr s)

/-- Initial state of a supervised run. -/
def initSys : Sys := ⟨.toLock, .notSpawned, false, 0, 0, []⟩

/-- A supervised run of `continuously_lock_screen` under a schedule and
the two oracles. -/
def run (d : Nat) (lockedOr panicOr : Nat → Bool) (sched : List Bool) : Sys :=
  runSteps d lockedOr panicOr sched initSys

/-! ## Timed model of the monitor loop

The monitor's sleeps (end_events.rs lines 258, 274, 278, 282) determine
when its loop-head stop-flag checks happen: the first check is after the
3-second settle sleep, and each iteration then takes the half-second poll
sleep, plus the 1-second grace and 2-second cool-down sleeps when the
poll reported unlocked.  Poll and command execution times are not
modelled (they only lengthen the intervals, so the lower bounds proved
here are conservative).  All times are in milliseconds. -/

/-- Settle delay before monitoring starts (`from_secs(3)`). -/
def settleMs : Nat := 3000

/-- Grace period before a re-lock (`from_secs(1)`). -/
def graceMs : Nat := 1000

/-- Cool-down after a re-lock (`from_secs(2)`). -/
def cooldownMs : Nat := 2000

/-- Poll interval (`from_millis(500)`). -/
def pollIntervalMs : Nat := 500

/-- Duration of loop iteration `i`: the poll sleep, plus grace and
cool-down when poll `i` reported unlocked. -/
def iterCost (lockedOr : Nat → Bool) (i : Nat) : Nat :=
  if lockedOr i then pollIntervalMs
  else graceMs + cooldownMs + pollIntervalMs

/-- Time of the `i`-th loop-head stop-flag check. -/
def checkTime (lockedOr : Nat → Bool) : Nat → Nat
  | 0 => settleMs
  | i + 1 => checkTime lockedOr i + iterCost lockedOr i

/-- Time of the monitor's re-lock `lock_screen()` call in iteration `i`
(meaningful when poll `i` reported unlocked): the grace sleep after the
check. -/
def monLockTime (lockedOr : Nat → Bool) (i : Nat) : Nat :=
  checkTime lockedOr i + graceMs

/-- Finds the first loop-head check at or after time `t`, walking the
check times from index `i` with explicit fuel. -/
def nextCheckAux (lockedOr : Nat → Bool) (t : Nat) : Nat → Nat → Nat
  | i, 0 => checkTime lockedOr i
  | i, fuel + 1 =>
    if t ≤ checkTime lockedOr i then checkTime lockedOr i
    else nextCheckAux lockedOr t (i + 1) fuel

/-- Time of the first loop-head check at or after time `t` (fuel `t`
suffices because checks are at least `pollIntervalMs` apart). -/
def nextCheck (lockedOr : Nat → Bool) (t : Nat) : Nat :=
  nextCheckAux lockedOr t 0 t

/-- Shutdown latency when the caller stores the stop flag at time `t`: the
monitor exits at its first loop-head check at or after `t`. -/
def shutdownLatency (lockedOr : Nat → Bool) (t : Nat) : Nat :=
  nextCheck lockedOr t - t

/-! ## Invariants of the interleaving semantics -/

/-- Helper: consing preserves a known last element. -/
theorem getLast?_cons_of_some {α : Type} (e : α) {l : List α} {x : α}
    (h : l.getLast? = some x) : (e :: l).getLast? = some x := by
  cases l with
  | nil => simp at h
  | cons c l2 => rw [List.getLast?_cons_cons]; exact h

/-- Inductive invariant of a supervised run: before the initial lock the
trace is empty and the monitor is not spawned; afterwards the oldest
event is the initial `lock_screen()`; the `ret` event is in the trace
exactly when the caller has returned; and a returned caller implies the
monitor has exited or panicked and `ret` is the newest event. -/
structure Inv (s : Sys) : Prop where
  init_empty : s.caller = .toLock → s.trace = [] ∧ s.mon = .notSpawned
  first_lock : s.caller ≠ .toLock → s.trace.getLast? = some .lockCaller
  ret_done : .ret ∈ s.trace ↔ s.caller = .done
  done_mon : s.caller = .done →
    (s.mon = .finished ∨ s.mon = .panicked) ∧ s.trace.head? = some .ret

/-- The initial state satisfies the invariant. -/
theorem inv_initSys : Inv initSys := by
  constructor <;> simp [initSys]

/-- The caller step preserves the invariant. -/
theorem inv_stepCaller (d : Nat) (s : Sys) (h : Inv s) : Inv (stepCaller d s) := by
  obtain ⟨c, m, f, pl, ml, tr⟩ := s
  obtain ⟨h1, h2, h3, h4⟩ := h
  simp only at h1 h2 h3 h4
  cases c with
  | toLock =>
    obtain ⟨htr, hm⟩ := h1 rfl
    subst htr hm
    constructor <;> simp [stepCaller]
  | toSpawn =>
    have hl := h2 (by simp)
    constructor <;> simp_all [stepCaller]
    exact getLast?_cons_of_some _ hl
  | sleeping n =>
    cases n with
    | zero =>
      have hl := h2 (by simp)
      constructor <;> simp_all [stepCaller]
    | succ k =>
      have hl := h2 (by simp)
      constructor <;> simp_all [stepCaller]
  | toStore =>
    have hl := h2 (by simp)
    constructor <;> simp_all [stepCaller]
    exact getLast?_cons_of_some _ hl
  | toJoin =>
    have hl := h2 (by simp)
    cases m with
    | finished =>
      constructor <;> simp_all [stepCaller]
      exact getLast?_cons_of_some _ hl
    | panicked =>
      constructor <;> simp_all [stepCaller]
      exact getLast?_cons_of_some _ hl
    | notSpawned =>
      exact ⟨h1, h2, h3, h4⟩
    | running pc =>
      exact ⟨h1, h2, h3, h4⟩
  | done =>
    exact ⟨h1, h2, h3, h4⟩

/-- The monitor step preserves the invariant. -/
theorem inv_stepMon (lockedOr panicOr : Nat → Bool) (s : Sys) (h : Inv s) :
    Inv (stepMon lockedOr panicOr s) := by
  obtain ⟨c, m, f, pl, ml, tr⟩ := s
  obtain ⟨h1, h2, h3, h4⟩ := h
  simp only at h1 h2 h3 h4
  cases m with
  | notSpawned => exact ⟨h1, h2, h3, h4⟩
  | finished => exact ⟨h1, h2, h3, h4⟩
  | panicked => exact ⟨h1, h2, h3, h4⟩
  | running pc =>
    have hcl : c ≠ .toLock := by
      intro hc; exact absurd (h1 hc).2 (by simp)
    have hcd : c ≠ .done := by
      intro hc; rcases (h4 hc).1 with hm | hm <;> simp_all
    have hl := h2 hcl
    cases pc with
    | settle =>
      constructor <;> simp_all [stepMon]
      exact getLast?_cons_of_some _ hl
    | checkFlag =>
      cases f with
      | true =>
        constructor <;> simp_all [stepMon]
        exact getLast?_cons_of_some _ hl
      | false =>
        constructor <;> simp_all [stepMon]
    | toPoll =>
      constructor <;> simp_all [stepMon]
      exact getLast?_cons_of_some _ hl
    | grace =>
      constructor <;> simp_all [stepMon]
    | relock =>
      cases hp : panicOr ml with
      | true =>
        constructor <;> simp_all [stepMon]
        exact getLast?_cons_of_some _ hl
      | false =>
        constructor <;> simp_all [stepMon]
        exact getLast?_cons_of_some _ hl
    | cooldown =>
      constructor <;> simp_all [stepMon]
    | sleepHalf =>
      constructor <;> simp_all [stepMon]

/-- Running any schedule preserves the invariant. -/
theorem inv_runSteps (d : Nat) (lockedOr panicOr : Nat → Bool)
    (sched : List Bool) (s : Sys) (h : Inv s) :
    Inv (runSteps d lockedOr panicOr sched s) := by
  induction sched generalizing s with
  | nil => exact h
  | cons c rest ih =>
    cases c with
    | true => exact ih _ (inv_stepCaller d s h)
    | false => exact ih _ (inv_stepMon lockedOr panicOr s h)

/-- Every state of a supervised run satisfies the invariant. -/
theorem inv_run (d : Nat) (lockedOr panicOr : Nat → Bool) (sched : List Bool) :
    Inv (run d lockedOr panicOr sched) :=
  inv_runSteps d lockedOr panicOr sched initSys inv_initSys

/-- After the caller has returned and the monitor has exited or panicked,
both threads are finished: every further step leaves the state unchanged. -/
theorem step_fixed_of_done (d : Nat) (lockedOr panicOr : Nat → Bool) (s : Sys)
    (hc : s.caller = .done) (hm : s.mon = .finished ∨ s.mon = .panicked) :
    stepCaller d s = s ∧ stepMon lockedOr panicOr s = s := by
  obtain ⟨c, m, f, pl, ml, tr⟩ := s
  simp only at hc
  subst hc
  constructor
  · simp [stepCaller]
  · rcases hm with hm | hm <;> simp only at hm <;> subst hm <;> simp [stepMon]

/-- Schedules compose by appending. -/
theorem runSteps_append (d : Nat) (lockedOr panicOr : Nat → Bool)
    (a b : List Bool) (s : Sys) :
    runSteps d lockedOr panicOr (a ++ b) s =
      runSteps d lockedOr panicOr b (runSteps d lockedOr panicOr a s) := by
  induction a generalizing s with
  | nil => rfl
  | cons c rest ih => cases c <;> simp [runSteps, ih]

/-- A state fixed by both steps is fixed by any schedule. -/
theorem runSteps_fixed (d : Nat) (lockedOr panicOr : Nat → Bool)
    (sched : List Bool) (s : Sys)
    (hc : s.caller = .done) (hm : s.mon = .finished ∨ s.mon = .panicked) :
    runSteps d lockedOr panicOr sched s = s := by
  induction sched with
  | nil => rfl
  | cons c rest ih =>
    obtain ⟨hfc, hfm⟩ := step_fixed_of_done d lockedOr panicOr s hc hm
    cases c <;> simp [runSteps, hfc, hfm, ih]

/-! ## Lemmas about the timed model -/

/-- Every iteration takes at least the poll interval. -/
theorem iterCost_ge (lockedOr : Nat → Bool) (i : Nat) :
    pollIntervalMs ≤ iterCost lockedOr i := by
  unfold iterCost
  split <;> simp [pollIntervalMs, graceMs, cooldownMs]

/-- Every iteration takes at most grace plus cool-down plus the poll
interval. -/
theorem iterCost_le (lockedOr : Nat → Bool) (i : Nat) :
    iterCost lockedOr i ≤ graceMs + cooldownMs + pollIntervalMs := by
  unfold iterCost
  split <;> simp [pollIntervalMs, graceMs, cooldownMs]

/-- Check times grow at least linearly in the poll interval. -/
theorem checkTime_ge (lockedOr : Nat → Bool) (i : Nat) :
    settleMs + pollIntervalMs * i ≤ checkTime lockedOr i := by
  induction i with
  | zero => simp [checkTime]
  | succ k ih =>
    have := iterCost_ge lockedOr k
    simp only [checkTime, Nat.mul_succ]
    omega

/-- A check time that is already at or past `t` is returned unchanged. -/
theorem nextCheckAux_of_le (lockedOr : Nat → Bool) (t i fuel : Nat)
    (h : t ≤ checkTime lockedOr i) :
    nextCheckAux lockedOr t i fuel = checkTime lockedOr i := by
  cases fuel with
  | zero => rfl
  | succ k => simp [nextCheckAux, h]

/-- With enough fuel, the search starting strictly before `t` lands on a
check at or after `t`, and within one maximal iteration bound `B` of `t`. -/
theorem nextCheckAux_bounds (lockedOr : Nat → Bool) (t B : Nat)
    (hB : ∀ j, iterCost lockedOr j ≤ B) :
    ∀ fuel i, checkTime lockedOr i < t → t ≤ checkTime lockedOr (i + fuel) →
      t ≤ nextCheckAux lockedOr t i fuel ∧
        nextCheckAux lockedOr t i fuel ≤ t + B := by
  intro fuel
  induction fuel with
  | zero =>
    intro i hlt hle
    simp only [Nat.add_zero] at hle
    omega
  | succ k ih =>
    intro i hlt hle
    simp only [nextCheckAux, if_neg (by omega : ¬ t ≤ checkTime lockedOr i)]
    by_cases hnext : t ≤ checkTime lockedOr (i + 1)
    · rw [nextCheckAux_of_le lockedOr t (i + 1) k hnext]
      refine ⟨hnext, ?_⟩
      have hstep : checkTime lockedOr (i + 1) =
          checkTime lockedOr i + iterCost lockedOr i := rfl
      have := hB i
      omega
    · exact ih (i + 1) (by omega)
        (by
          have : i + 1 + k = i + (k + 1) := by omega
          rw [this]; exact hle)

/-- Fuel `t` suffices for the search from index 0. -/
theorem checkTime_unbounded (lockedOr : Nat → Bool) (t : Nat) :
    t ≤ checkTime lockedOr (0 + t) := by
  have := checkTime_ge lockedOr (0 + t)
  simp only [settleMs, pollIntervalMs] at this
  omega

/-- General latency bound derived from a uniform iteration bound. -/
theorem shutdownLatency_le_of_iterBound (lockedOr : Nat → Bool) (t B : Nat)
    (hB : ∀ j, iterCost lockedOr j ≤ B) (hBs : settleMs ≤ t + B) :
    shutdownLatency lockedOr t ≤ B := by
  unfold shutdownLatency nextCheck
  by_cases h0 : t ≤ checkTime lockedOr 0
  · rw [nextCheckAux_of_le lockedOr t 0 t h0]
    simp only [checkTime] at *
    omega
  · have := nextCheckAux_bounds lockedOr t B hB t 0 (by omega)
      (checkTime_unbounded lockedOr t)
    omega

/-! ## Claim theorems -/

/-- C1: for every input to `play_sound`, the embedded default sound is
selected exactly when the provided path is absent, the empty string, or
not an existing file; the warning is printed exactly in the non-existent
case; and an existing file is selected itself, never the default. -/
theorem play_sound_resolution (isFile : String → Bool) (fp : Option String) :
    ((play_sound isFile fp).source = .internal ↔
      fp = none ∨ fp = some "" ∨ ∃ p, fp = some p ∧ p ≠ "" ∧ isFile p = false) ∧
    ((play_sound isFile fp).warned = true ↔
      ∃ p, fp = some p ∧ p ≠ "" ∧ isFile p = false) ∧
    (∀ p, fp = some p → p ≠ "" → isFile p = true →
      (play_sound isFile fp).source = .external p ∧
        (play_sound isFile fp).warned = false) := by
  cases fp with
  | none => simp [play_sound]
  | some p =>
    by_cases hp : p = ""
    · subst hp
      simp [play_sound]
    · by_cases hf : isFile p
      · simp [play_sound, hp, hf]
      · simp [play_sound, hp, hf]

/-- C1 witness: an existing non-empty path is played itself, silently. -/
theorem play_sound_resolution_witness :
    (play_sound (fun _ => true) (some "a")).source = .external "a" ∧
      (play_sound (fun _ => true) (some "a")).warned = false :=
  (play_sound_resolution (fun _ => true) (some "a")).2.2 "a" rfl (by decide) rfl

/-- C2: serializing the three example `EndEvent` values yields exactly the
literal strings of the spec's table, and deserializing each literal
reconstructs an equal value (round-trip). -/
theorem endEvent_serialization_roundtrip :
    serializeEndEvent (.Sound (some "sound.wav")) =
        "\x7b\"sound\":\x7b\"filepathSound\":\"sound.wav\"\x7d\x7d" ∧
    serializeEndEvent (.Sound none) = "\x7b\"sound\":\x7b\x7d\x7d" ∧
    serializeEndEvent .LockScreen = "\"lockScreen\"" ∧
    deserializeEndEvent "\x7b\"sound\":\x7b\"filepathSound\":\"sound.wav\"\x7d\x7d" =
        some (.Sound (some "sound.wav")) ∧
    deserializeEndEvent "\x7b\"sound\":\x7b\x7d\x7d" = some (.Sound none) ∧
    deserializeEndEvent "\"lockScreen\"" = some .LockScreen :=
  ⟨by decide, by decide, by decide, by decide, by decide, by decide⟩

/-- C3 counterexample: a `Sound` value whose path is present but empty
serializes WITH the `filepathSound` field (as an empty string), because
the field is skipped only when the option is `None`
(`skip_serializing_if = "Option::is_none"`). -/
theorem sound_empty_path_serializes_with_field :
    serializeEndEvent (.Sound (some "")) =
        "\x7b\"sound\":\x7b\"filepathSound\":\"\"\x7d\x7d" ∧
    serializeEndEvent (.Sound (some "")) ≠ "\x7b\"sound\":\x7b\x7d\x7d" :=
  ⟨by decide, by decide⟩

/-- C3 amended: `Sound` serializes without the `filepathSound` field
exactly when the path option is `None`; a present-but-empty path is
emitted as an empty-string field, not dropped. -/
theorem sound_field_skipped_iff_none (fp : Option String) :
    serializeEndEvent (.Sound fp) = soundEmptyJson ↔ fp = none := by
  cases fp with
  | none => simp [serializeEndEvent]
  | some p =>
    simp only [serializeEndEvent]
    constructor
    · intro h
      exfalso
      have h2 := congrArg String.length h
      rw [String.length_append, String.length_append] at h2
      have hlt : soundEmptyJson.length < soundFieldPre.length := by decide
      omega
    · intro h
      simp at h

/-- C4: in every interleaving of a supervised run, for any duration
(including 0): a completed run performed the initial `lock_screen()`, and
the initial lock is the first event of the trace, strictly before any
`is_screen_locked` poll. -/
theorem initial_lock_before_polls (d : Nat) (lockedOr panicOr : Nat → Bool)
    (sched : List Bool) :
    (.ret ∈ (run d lockedOr panicOr sched).trace →
      .lockCaller ∈ (run d lockedOr panicOr sched).trace) ∧
    (∀ i b, ((run d lockedOr panicOr sched).trace.reverse)[i]? =
        some (.pollEv b) →
      0 < i ∧ ((run d lockedOr panicOr sched).trace.reverse)[0]? =
        some .lockCaller) := by
  have hinv := inv_run d lockedOr panicOr sched
  constructor
  · intro hret
    have hc := hinv.ret_done.mp hret
    have hl := hinv.first_lock (by simp [hc])
    exact List.mem_of_mem_getLast? (by rw [hl]; rfl)
  · intro i b h
    have hne : (run d lockedOr panicOr sched).trace ≠ [] := by
      intro h0
      rw [h0] at h
      simp at h
    have hl := hinv.first_lock (fun hc => hne (hinv.init_empty hc).1)
    have hh : ((run d lockedOr panicOr sched).trace.reverse).head? =
        some .lockCaller := by
      rw [List.head?_reverse]; exact hl
    have h0 : ((run d lockedOr panicOr sched).trace.reverse)[0]? =
        some .lockCaller := by
      cases hrev : (run d lockedOr panicOr sched).trace.reverse with
      | nil => rw [hrev] at hh; simp at hh
      | cons x xs =>
        rw [hrev] at hh
        simp at hh
        simp [hrev, hh]
    refine ⟨?_, h0⟩
    rcases Nat.eq_zero_or_pos i with hi | hi
    · subst hi
      rw [h0] at h
      simp at h
    · exact hi

/-- C4 witness: a completed zero-duration run contains the initial lock,
and in a run whose fourth event is a poll, the first event is the initial
lock. -/
theorem initial_lock_before_polls_witness :
    Ev.lockCaller ∈ (run 0 (fun _ => true) (fun _ => false)
        [true, true, true, true, false, false, true]).trace ∧
    (0 < 3 ∧ ((run 0 (fun _ => true) (fun _ => false)
        [true, true, false, false, false]).trace.reverse)[0]? =
      some .lockCaller) :=
  ⟨(initial_lock_before_polls 0 (fun _ => true) (fun _ => false)
      [true, true, true, true, false, false, true]).1 (by decide),
   (initial_lock_before_polls 0 (fun _ => true) (fun _ => false)
      [true, true, false, false, false]).2 3 true (by decide)⟩

/-- C5: once a supervised run has returned (the `ret` event is in its
trace), the monitor thread has been joined — it has exited or panicked —
and extending the schedule changes nothing: no monitor `lock_screen()`
call can occur after `continuously_lock_screen` returns. -/
theorem monitor_joined_before_return (d : Nat) (lockedOr panicOr : Nat → Bool)
    (sched extra : List Bool)
    (hret : .ret ∈ (run d lockedOr panicOr sched).trace) :
    ((run d lockedOr panicOr sched).mon = .finished ∨
      (run d lockedOr panicOr sched).mon = .panicked) ∧
    run d lockedOr panicOr (sched ++ extra) = run d lockedOr panicOr sched := by
  have hinv := inv_run d lockedOr panicOr sched
  have hc := hinv.ret_done.mp hret
  have hm := (hinv.done_mon hc).1
  refine ⟨hm, ?_⟩
  simp only [run] at hc hm ⊢
  rw [runSteps_append]
  exact runSteps_fixed d lockedOr panicOr extra _ hc hm

/-- C5 witness: a completed zero-duration run has a finished (or panicked)
monitor and is unchanged by further scheduling. -/
theorem monitor_joined_before_return_witness :
    ((run 0 (fun _ => true) (fun _ => false)
        [true, true, true, true, false, false, true]).mon = .finished ∨
      (run 0 (fun _ => true) (fun _ => false)
        [true, true, true, true, false, false, true]).mon = .panicked) ∧
    run 0 (fun _ => true) (fun _ => false)
        ([true, true, true, true, false, false, true] ++ [false, true]) =
      run 0 (fun _ => true) (fun _ => false)
        [true, true, true, true, false, false, true] :=
  monitor_joined_before_return 0 (fun _ => true) (fun _ => false)
    [true, true, true, true, false, false, true] [false, true] (by decide)

/-- C6 counterexample: a stop signal stored at time 0 — during the
monitor's 3-second settle sleep — is observed only at the first loop-head
check at 3000 ms, so the shutdown latency is the full settle delay, far
more than the half-second poll interval the claim allows. -/
theorem stop_latency_exceeds_poll_interval :
    shutdownLatency (fun _ => true) 0 = settleMs ∧
    ¬ shutdownLatency (fun _ => true) 0 ≤ pollIntervalMs :=
  ⟨by decide, by decide⟩

/-- C6 amended: the monitor observes the stop signal at its next loop-head
check, and the shutdown latency is bounded by the longest sleep sequence
of one iteration — grace plus cool-down plus poll interval (3.5 s; the
settle delay, 3 s, is shorter) — not by the poll interval alone; the
poll-interval bound holds only once monitoring has started and every poll
reports locked. -/
theorem stop_latency_bounds (lockedOr : Nat → Bool) (t : Nat) :
    shutdownLatency lockedOr t ≤ graceMs + cooldownMs + pollIntervalMs ∧
    ((∀ n, lockedOr n = true) → settleMs ≤ t →
      shutdownLatency lockedOr t ≤ pollIntervalMs) := by
  constructor
  · exact shutdownLatency_le_of_iterBound lockedOr t _ (iterCost_le lockedOr)
      (by simp [settleMs, graceMs, cooldownMs, pollIntervalMs])
  · intro hall ht
    refine shutdownLatency_le_of_iterBound lockedOr t _ ?_ ?_
    · intro j
      simp [iterCost, hall j]
    · simp only [settleMs, pollIntervalMs] at *
      omega

/-- C6 witness: with the stop signal stored exactly when monitoring starts
and the screen staying locked, the latency respects both bounds. -/
theorem stop_latency_bounds_witness :
    shutdownLatency (fun _ => true) 3000 ≤
        graceMs + cooldownMs + pollIntervalMs ∧
    shutdownLatency (fun _ => true) 3000 ≤ pollIntervalMs :=
  ⟨(stop_latency_bounds (fun _ => true) 3000).1,
   (stop_latency_bounds (fun _ => true) 3000).2 (fun _ => rfl) (by decide)⟩

/-- C7: on Linux, `lock_screen_on_linux` attempts loginctl, then
gnome-screensaver-command, then dbus-send, in that order; the first
success ends the chain and the remaining commands are not invoked; only
when all three fail is the warning printed. -/
theorem lock_screen_on_linux_fallback (r : LinuxLockCmd → CmdResult) :
    (cmdSucceeded (r .loginctl) = true →
      lock_screen_on_linux r = ⟨[.loginctl], false⟩) ∧
    (cmdSucceeded (r .loginctl) = false →
      cmdSucceeded (r .gnomeScreensaverCommand) = true →
      lock_screen_on_linux r = ⟨[.loginctl, .gnomeScreensaverCommand], false⟩) ∧
    (cmdSucceeded (r .loginctl) = false →
      cmdSucceeded (r .gnomeScreensaverCommand) = false →
      cmdSucceeded (r .dbusSend) = true →
      lock_screen_on_linux r =
        ⟨[.loginctl, .gnomeScreensaverCommand, .dbusSend], false⟩) ∧
    (cmdSucceeded (r .loginctl) = false →
      cmdSucceeded (r .gnomeScreensaverCommand) = false →
      cmdSucceeded (r .dbusSend) = false →
      lock_screen_on_linux r =
        ⟨[.loginctl, .gnomeScreensaverCommand, .dbusSend], true⟩) := by
  refine ⟨?_, ?_, ?_, ?_⟩ <;> intros <;> simp_all [lock_screen_on_linux]

/-- C7 witness: when loginctl succeeds it is the only command attempted
and no warning is printed. -/
theorem lock_screen_on_linux_fallback_witness :
    lock_screen_on_linux (fun _ => .exited true) = ⟨[.loginctl], false⟩ :=
  (lock_screen_on_linux_fallback (fun _ => .exited true)).1 rfl

/-- Helper: when the freedesktop query does not answer, the Linux status
check falls through to the GNOME query. -/
theorem is_screen_locked_linux_of_first_none
    (lrun : LinuxStatusQuery → Option CmdOutput)
    (h : linuxQueryAnswer lrun .freedesktopScreenSaver = none) :
    is_screen_locked_linux lrun = is_screen_locked_linux_gnome lrun := by
  unfold is_screen_locked_linux
  unfold linuxQueryAnswer at h
  cases hq : lrun .freedesktopScreenSaver with
  | none => rfl
  | some o =>
    rw [hq] at h
    obtain ⟨ss, su⟩ := o
    cases ss with
    | false => simp
    | true =>
      cases su with
      | none => simp
      | some r => simp at h

/-- Helper: the GNOME fallback returns the query's answer when it answers,
and `false` otherwise. -/
theorem is_screen_locked_linux_gnome_answer
    (lrun : LinuxStatusQuery → Option CmdOutput) :
    (∀ b, linuxQueryAnswer lrun .gnomeScreenSaver = some b →
      is_screen_locked_linux_gnome lrun = b) ∧
    (linuxQueryAnswer lrun .gnomeScreenSaver = none →
      is_screen_locked_linux_gnome lrun = false) := by
  unfold is_screen_locked_linux_gnome linuxQueryAnswer
  cases hq : lrun .gnomeScreenSaver with
  | none => simp
  | some o =>
    obtain ⟨ss, su⟩ := o
    cases ss with
    | false => simp
    | true =>
      cases su with
      | none => simp
      | some r => simp

/-- C8: `is_screen_locked` returns the answer of the first status query
that answers successfully (launches, exits successfully, and yields valid
UTF-8); when no query answers — always on Windows and unknown platforms,
and on macOS when pgrep cannot launch — it reports not locked. -/
theorem is_screen_locked_first_answer
    (lrun : LinuxStatusQuery → Option CmdOutput) (mrun : Option CmdOutput) :
    (∀ b, linuxQueryAnswer lrun .freedesktopScreenSaver = some b →
      is_screen_locked .linux lrun mrun = b) ∧
    (linuxQueryAnswer lrun .freedesktopScreenSaver = none →
      ∀ b, linuxQueryAnswer lrun .gnomeScreenSaver = some b →
        is_screen_locked .linux lrun mrun = b) ∧
    (linuxQueryAnswer lrun .freedesktopScreenSaver = none →
      linuxQueryAnswer lrun .gnomeScreenSaver = none →
      is_screen_locked .linux lrun mrun = false) ∧
    is_screen_locked .windows lrun mrun = false ∧
    (mrun = none → is_screen_locked .macos lrun mrun = false) ∧
    is_screen_locked .other lrun mrun = false := by
  refine ⟨?_, ?_, ?_, rfl, ?_, rfl⟩
  · intro b h
    show is_screen_locked_linux lrun = b
    unfold is_screen_locked_linux
    unfold linuxQueryAnswer at h
    cases hq : lrun .freedesktopScreenSaver with
    | none => rw [hq] at h; simp at h
    | some o =>
      rw [hq] at h
      obtain ⟨ss, su⟩ := o
      cases ss with
      | false => simp at h
      | true =>
        cases su with
        | none => simp at h
        | some r => simp_all
  · intro h1 b h2
    show is_screen_locked_linux lrun = b
    rw [is_screen_locked_linux_of_first_none lrun h1]
    exact (is_screen_locked_linux_gnome_answer lrun).1 b h2
  · intro h1 h2
    show is_screen_locked_linux lrun = false
    rw [is_screen_locked_linux_of_first_none lrun h1]
    exact (is_screen_locked_linux_gnome_answer lrun).2 h2
  · intro h
    subst h
    rfl

/-- C8 witness: a successful freedesktop query reporting `(true,)` makes
the Linux check report locked. -/
theorem is_screen_locked_first_answer_witness :
    is_screen_locked .linux (fun _ => some ⟨true, some "(true,)"⟩) none = true :=
  (is_screen_locked_first_answer (fun _ => some ⟨true, some "(true,)"⟩) none).1
    true (by decide)

/-- C9: when every poll reports unlocked, consecutive monitor re-lock
calls are separated by at least the grace period plus the cool-down
window (1 s + 2 s). -/
theorem monitor_relock_rate_limited (lockedOr : Nat → Bool)
    (h : ∀ n, lockedOr n = false) (i : Nat) :
    monLockTime lockedOr i + (graceMs + cooldownMs) ≤
      monLockTime lockedOr (i + 1) := by
  have hstep : checkTime lockedOr (i + 1) =
      checkTime lockedOr i + iterCost lockedOr i := rfl
  have hc : iterCost lockedOr i = graceMs + cooldownMs + pollIntervalMs := by
    simp [iterCost, h i]
  simp only [monLockTime]
  omega

/-- C9 witness: the first two re-locks of an always-unlocked run are at
least grace plus cool-down apart. -/
theorem monitor_relock_rate_limited_witness :
    monLockTime (fun _ => false) 0 + (graceMs + cooldownMs) ≤
      monLockTime (fun _ => false) 1 :=
  monitor_relock_rate_limited (fun _ => false) (fun _ => rfl) 0

/-- C10: the caller's join step treats a panicked monitor exactly like a
normally finished one — `let _ = monitor_thread.join()` discards the join
error and the supervising call returns normally; a monitor failure is
never propagated upward. -/
theorem join_discards_monitor_panic (d : Nat) (s : Sys)
    (h1 : s.caller = .toJoin) (h2 : s.mon = .panicked) :
    stepCaller d s = { s with caller := .done, trace := .ret :: s.trace } := by
  obtain ⟨c, m, f, pl, ml, tr⟩ := s
  simp only at h1 h2
  subst h1 h2
  rfl

/-- C10 witness: joining a panicked monitor returns normally, and a full
run whose monitor panics during a re-lock still completes with the `ret`
event. -/
theorem join_discards_monitor_panic_witness :
    stepCaller 0 ⟨.toJoin, .panicked, true, 1, 0, [.monPanic]⟩ =
      ⟨.done, .panicked, true, 1, 0, [.ret, .monPanic]⟩ ∧
    ((run 0 (fun _ => false) (fun _ => true)
        [true, true, false, false, false, false, false, true, true, true]).caller =
      .done ∧
      Ev.monPanic ∈ (run 0 (fun _ => false) (fun _ => true)
        [true, true, false, false, false, false, false, true, true, true]).trace ∧
      Ev.ret ∈ (run 0 (fun _ => false) (fun _ => true)
        [true, true, false, false, false, false, false, true, true, true]).trace) :=
  ⟨join_discards_monitor_panic 0 ⟨.toJoin, .panicked, true, 1, 0, [.monPanic]⟩
      rfl rfl,
   by decide⟩

end EndEvents
